import Mathlib

/-!
Verification of the TurtLSystems core (grammar expansion, palette construction,
and the stateful L-system command interpreter) against its specification.

The Python source (`src/TurtLSystems/turtlsystems.py`) is shallowly embedded
below.  Pure helpers (`lsystem`, `clamp`, `conform_color`, `make_rules`,
`make_colors`) become Lean functions over `List Char`, `Int` and `Rat`.
The interpreter `run` becomes an explicit state machine: the turtle-graphics
collaborator is modelled as a record of pose/pen data plus an emitted trace of
collaborator calls, with the collaborator-owned geometry (the effect of
`forward` on the position and of `left`/`right` on the heading) supplied as
function parameters, since the core never inspects those values beyond
saving and restoring them.
-/

namespace TurtLSystems

/-- Python `Color = Tuple[int, int, int]`: an rgb triplet of machine integers. -/
structure Color where
  r : Int
  g : Int
  b : Int
deriving DecidableEq

/-- Python `OpColor = Optional[Color]`: `none` is the "no color" sentinel. -/
abbrev OpColor := Option Color

/-- Python `DEFAULT_COLORS` global (turtlsystems.py lines 18-29). -/
def DEFAULT_COLORS : List Color :=
  [⟨255, 255, 255⟩, ⟨128, 128, 128⟩, ⟨255, 0, 0⟩, ⟨255, 128, 0⟩, ⟨255, 255, 0⟩,
   ⟨0, 255, 0⟩, ⟨0, 255, 255⟩, ⟨0, 0, 255⟩, ⟨128, 0, 255⟩, ⟨255, 0, 255⟩]

/-- Python `clamp(value, minimum, maximum)` (line 396). -/
def clamp (value minimum maximum : Int) : Int :=
  max minimum (min value maximum)

/-- Python `clamp(value)` with its default bounds 0 and 255. -/
def clamp255 (value : Int) : Int :=
  clamp value 0 255

/-- Python `conform_color(color)` (lines 401-405): the no-color sentinel passes
through, otherwise each channel is clamped to 0-255. -/
def conform_color (color : OpColor) : OpColor :=
  match color with
  | some c => some ⟨clamp255 c.r, clamp255 c.g, clamp255 c.b⟩
  | none => none

/-- Python `make_colors(color, fill_color, colors)` (lines 422-428).
When `colors` is absent the result is the conformed `color` and `fill_color`
followed by the default tail; otherwise up to `len(DEFAULT_COLORS)` supplied
entries are conformed and the remaining slots come from `DEFAULT_COLORS` by
index (`colors.extend(DEFAULT_COLORS[len(colors):])`). -/
def make_colors (color fill_color : OpColor) (colors : Option (List OpColor)) : List OpColor :=
  match colors with
  | none => conform_color color :: conform_color fill_color :: (DEFAULT_COLORS.drop 2).map some
  | some cs =>
    let cs2 := (cs.take DEFAULT_COLORS.length).map conform_color
    cs2 ++ (DEFAULT_COLORS.drop cs2.length).map some

/-- Characters treated as whitespace by Python `str.split()` (ASCII part). -/
def isSpaceChar (c : Char) : Bool :=
  c == ' ' || c == '\t' || c == '\n' || c == '\r' || Char.ofNat 11 == c || Char.ofNat 12 == c

/-- Helper for `splitWs`: accumulates the current (reversed) token. -/
def splitWsAux : List Char → List Char → List (List Char)
  | [], acc => if acc.isEmpty then [] else [acc.reverse]
  | c :: rest, acc =>
    if isSpaceChar c then
      if acc.isEmpty then splitWsAux rest [] else acc.reverse :: splitWsAux rest []
    else splitWsAux rest (c :: acc)

/-- Python `str.split()` with no arguments: split on whitespace runs,
discarding empty tokens. -/
def splitWs (s : List Char) : List (List Char) :=
  splitWsAux s []

/-- Python `lst[::2]`: every other element starting from index 0. -/
def everyOther {α : Type} : List α → List α
  | [] => []
  | [x] => [x]
  | x :: _ :: rest => x :: everyOther rest

/-- A rules dict as Python builds it: string keys in insertion order. -/
abbrev RulesDict := List (List Char × List Char)

/-- Python `dict` insertion: an existing key is updated in place, a new key is
appended at the end. -/
def dictInsert (d : RulesDict) (k v : List Char) : RulesDict :=
  if d.any (fun kv => kv.1 == k) then
    d.map (fun kv => if kv.1 == k then (k, v) else kv)
  else d ++ [(k, v)]

/-- Python `dict(pairs)`: left-to-right insertion, later duplicates win. -/
def dictFromPairs (ps : List (List Char × List Char)) : RulesDict :=
  ps.foldl (fun d kv => dictInsert d kv.1 kv.2) []

/-- Python `d.get(k)` on a dict: the value at `k` if present. -/
def dictGet (d : RulesDict) (k : List Char) : Option (List Char) :=
  match d.find? (fun kv => kv.1 == k) with
  | some kv => some kv.2
  | none => none

/-- Python `make_rules(rules)` (lines 414-419), string branch:
`split = rules.split(); rules = dict(zip(split[::2], split[1::2]))`. -/
def make_rules (rules : List Char) : RulesDict :=
  let split := splitWs rules
  dictFromPairs ((everyOther split).zip (everyOther (split.drop 1)))

/-- One simultaneous substitution pass of `lsystem` (line 392):
`''.join(rules.get(c, c) for c in start)`. -/
def lsystemStep (rules : RulesDict) : List Char → List Char
  | [] => []
  | c :: rest => (dictGet rules [c]).getD [c] ++ lsystemStep rules rest

/-- Python `lsystem(start, rules, level)` (lines 389-393): `level` is a machine
integer; `for _ in range(level)` runs `max level 0` passes. -/
def lsystem (start : List Char) (rules : RulesDict) (level : Int) : List Char :=
  (fun s => lsystemStep rules s)^[level.toNat] start

/-- Positional pairing of a token list: `(t0,t1), (t2,t3), ...`, any trailing
unpaired token dropped. -/
def pairTokens {α : Type} : List α → List (α × α)
  | x :: y :: rest => (x, y) :: pairTokens rest
  | _ => []

/-- The turtle collaborator's state as far as the interpreter can observe it:
pose, pen engagement, applied stroke width, applied pen/fill colors, and the
animation speed that `orient` saves and restores. -/
structure Turtle where
  pos : Rat × Rat
  heading : Rat
  pendown : Bool
  pensize : Rat
  pencolor : Color
  fillcolor : Color
  speed : Int
deriving DecidableEq

/-- One call emitted to the Drawing or Recorder collaborator. -/
inductive TCall where
  | pendown : TCall
  | penup : TCall
  | forward : Rat → TCall
  | left : Rat → TCall
  | right : Rat → TCall
  | pensize : Rat → TCall
  | pencolor : Color → TCall
  | fillcolor : Color → TCall
  | begin_fill : TCall
  | end_fill : TCall
  | dotAt : Color → TCall
  | setposition : Rat × Rat → TCall
  | setheading : Rat → TCall
  | speed : Int → TCall
  | clear : TCall
  | captureFrame : TCall
deriving DecidableEq

/-- Python `State` (turtlsystems.py lines 41-65): the snapshot pushed on `[`. -/
structure State where
  position : Rat × Rat
  heading : Rat
  angle : Rat
  length : Rat
  thickness : Rat
  pen_color : OpColor
  fill_color : OpColor
  swap_signs : Bool
  swap_cases : Bool
  modify_fill : Bool
deriving DecidableEq

/-- One stored gif frame: the frame index used in its file name, the canvas
size returned by `save_eps`, and the background color at capture time. -/
abbrev Frame := Nat × (Int × Int) × Color

/-- The keyword arguments of `run` (lines 601-620).  `fwd`, `turnLeft` and
`turnRight` are the collaborator-owned geometry: the new position after
`t.forward(d)` from a pose, and the new heading after `t.left(a)` or
`t.right(a)`.  `gif` is whether gif capture is enabled (`gif` truthy in the
source); `bg` and `canvas` are the collaborator's background color and canvas
size used as frame metadata. -/
structure Params where
  fwd : Rat × Rat → Rat → Rat → Rat × Rat
  turnLeft : Rat → Rat → Rat
  turnRight : Rat → Rat → Rat
  colors : List OpColor
  full_circle : Rat
  position : Rat × Rat
  heading : Rat
  angle : Rat
  length : Rat
  thickness : Rat
  angle_increment : Rat
  length_increment : Rat
  length_scalar : Rat
  thickness_increment : Rat
  color_increments : Int × Int × Int
  gif : Bool
  draws_per_frame : Nat
  max_frames : Nat
  bg : Color
  canvas : Int × Int

/-- The interpreter's mutable locals in `run` (lines 623-628) together with the
observable collaborator state. -/
structure MState where
  turtle : Turtle
  angle : Rat
  length : Rat
  thickness : Rat
  penColor : OpColor
  fillColor : OpColor
  swapSigns : Bool
  swapCases : Bool
  modifyFill : Bool
  stack : List State
  gifData : List Frame
  draws : Nat
  framesAttempted : Nat
deriving DecidableEq

/-- Python `orient(t, position, heading)` (lines 441-453): silently reposition
or reorient the turtle, preserving pen engagement and speed. -/
def orient (pos : Option (Rat × Rat)) (hd : Option Rat) (t : Turtle) : Turtle × List TCall :=
  let sp := t.speed
  let dn := t.pendown
  let calls := [TCall.penup, TCall.speed 0]
    ++ (match pos with | some q => [TCall.setposition q] | none => [])
    ++ (match hd with | some h => [TCall.setheading h] | none => [])
    ++ [TCall.speed sp]
    ++ (if dn then [TCall.pendown] else [])
  ({ t with pos := pos.getD t.pos, heading := hd.getD t.heading }, calls)

/-- Python closure `save_frame` (lines 630-635): always count an attempt, and
store a frame (invoking the collaborator via `save_eps`) only while fewer than
`max_frames` are stored. -/
def save_frame (p : Params) (s : MState) : MState × List TCall :=
  let s1 : MState := { s with framesAttempted := s.framesAttempted + 1 }
  if s1.gifData.length < p.max_frames then
    ({ s1 with gifData := s1.gifData ++ [(s1.gifData.length, p.canvas, p.bg)] },
      [TCall.captureFrame])
  else (s1, [])

/-- Python closure `gif_handler` (lines 637-642): when gif capture is enabled,
count one qualifying draw and capture every `draws_per_frame`-th one. -/
def gif_handler (p : Params) (s : MState) : MState × List TCall :=
  if p.gif then
    let s1 : MState := { s with draws := s.draws + 1 }
    if s1.draws % p.draws_per_frame = 0 then save_frame p s1 else (s1, [])
  else (s, [])

/-- Python closure `set_pensize` (lines 644-645): apply `max(0, thickness)` as
the stroke width. -/
def set_pensize (s : MState) : MState × List TCall :=
  ({ s with turtle := { s.turtle with pensize := max 0 s.thickness } },
    [TCall.pensize (max 0 s.thickness)])

/-- Python closure `set_color` (lines 647-657): assign the pen color, or the
fill color when `modify_fill` is set (clearing it); apply to the collaborator
only when the new color is not the no-color sentinel. -/
def set_color (color : OpColor) (s : MState) : MState × List TCall :=
  if s.modifyFill then
    let s1 : MState := { s with modifyFill := false, fillColor := color }
    match color with
    | some col => ({ s1 with turtle := { s1.turtle with fillcolor := col } },
        [TCall.fillcolor col])
    | none => (s1, [])
  else
    let s1 : MState := { s with penColor := color }
    match color with
    | some col => ({ s1 with turtle := { s1.turtle with pencolor := col } },
        [TCall.pencolor col])
    | none => (s1, [])

/-- Channel projection of a color (Python `list(color)[channel]`). -/
def getChannel (c : Color) : Nat → Int
  | 0 => c.r
  | 1 => c.g
  | _ => c.b

/-- Channel update of a color (Python `lst[channel] = v`). -/
def setChannel (c : Color) : Nat → Int → Color
  | 0, v => { c with r := v }
  | 1, v => { c with g := v }
  | _, v => { c with b := v }

/-- Projection of the `color_increments` triple. -/
def channelInc (ci : Int × Int × Int) : Nat → Int
  | 0 => ci.1
  | 1 => ci.2.1
  | _ => ci.2.2

/-- Python closure `increment_color` (lines 659-665): bump one channel of the
active color (fill when `modify_fill` is set, else pen), clamped to 0-255;
a no-op when the active color is the no-color sentinel. -/
def increment_color (p : Params) (channel : Nat) (decrement : Bool) (s : MState) :
    MState × List TCall :=
  let color := if s.modifyFill then s.fillColor else s.penColor
  match color with
  | none => (s, [])
  | some col =>
    let amount := (if decrement then (-1 : Int) else 1) * channelInc p.color_increments channel
    set_color (some (setChannel col channel (clamp255 (getChannel col channel + amount)))) s

/-- The calls emitted by the `@` symbol's `if fill_color: t.dot(None,
fill_color)` (lines 750-752). -/
def dot_calls (o : OpColor) : List TCall :=
  match o with
  | some col => [TCall.dotAt col]
  | none => []

/-- The loop preamble `if swap_cases and c.isalpha(): c = c.lower() if
c.isupper() else c.upper()` (lines 676-677). -/
def caseAdjust (swapCases : Bool) (c : Char) : Char :=
  if swapCases && c.isAlpha then (if c.isUpper then c.toLower else c.toUpper) else c

/-- The character the source writes as a backslash: the escape symbol. -/
def escChar : Char := Char.ofNat 92

/-- The double-quote symbol (teleport to initial position). -/
def quoteChar : Char := Char.ofNat 34

/-- The single-quote symbol (reorient to initial heading). -/
def aposChar : Char := Char.ofNat 39

/-- The backquote symbol (toggle swap-cases). -/
def backquoteChar : Char := Char.ofNat 96

/-- The opening-brace symbol (begin fill). -/
def braceOpen : Char := Char.ofNat 123

/-- The closing-brace symbol (end fill). -/
def braceClose : Char := Char.ofNat 125

/-- The command selected by one (already case-adjusted) symbol: one tag per
branch of the `elif` chain in the `for c in string` loop of `run`
(lines 679-774), in the chain's order; any other character is `ignore`. -/
inductive Cmd where
  | upper : Cmd
  | lower : Cmd
  | resetLength : Cmd
  | incLength : Cmd
  | decLength : Cmd
  | mulLength : Cmd
  | divLength : Cmd
  | turnPlus : Cmd
  | turnMinus : Cmd
  | toggleSigns : Cmd
  | aboutFace : Cmd
  | resetAngle : Cmd
  | incAngle : Cmd
  | decAngle : Cmd
  | resetThickness : Cmd
  | incThickness : Cmd
  | decThickness : Cmd
  | digit : Nat → Cmd
  | modifyFillCmd : Cmd
  | incColor : Nat → Bool → Cmd
  | beginFillCmd : Cmd
  | endFillCmd : Cmd
  | dotCmd : Cmd
  | toggleCases : Cmd
  | gotoPos : Cmd
  | gotoHeading : Cmd
  | clearCmd : Cmd
  | push : Cmd
  | pop : Cmd
  | escape : Cmd
  | ignore : Cmd
deriving DecidableEq

/-- The `elif` chain of `run` (lines 680-774), as the map from a symbol to the
command it selects, condition for condition in the source's order. -/
def charCmd (c : Char) : Cmd :=
  if 'A' ≤ c ∧ c ≤ 'Z' then .upper
  else if 'a' ≤ c ∧ c ≤ 'z' then .lower
  else if c = '_' then .resetLength
  else if c = '^' then .incLength
  else if c = '%' then .decLength
  else if c = '*' then .mulLength
  else if c = '/' then .divLength
  else if c = '+' then .turnPlus
  else if c = '-' then .turnMinus
  else if c = '&' then .toggleSigns
  else if c = '|' then .aboutFace
  else if c = '~' then .resetAngle
  else if c = ')' then .incAngle
  else if c = '(' then .decAngle
  else if c = '=' then .resetThickness
  else if c = '>' then .incThickness
  else if c = '<' then .decThickness
  else if '0' ≤ c ∧ c ≤ '9' then .digit (c.toNat - '0'.toNat)
  else if c = '#' then .modifyFillCmd
  else if c = '.' then .incColor 0 false
  else if c = ',' then .incColor 0 true
  else if c = ':' then .incColor 1 false
  else if c = ';' then .incColor 1 true
  else if c = '!' then .incColor 2 false
  else if c = '?' then .incColor 2 true
  else if c = braceOpen then .beginFillCmd
  else if c = braceClose then .endFillCmd
  else if c = '@' then .dotCmd
  else if c = backquoteChar then .toggleCases
  else if c = quoteChar then .gotoPos
  else if c = aposChar then .gotoHeading
  else if c = '$' then .clearCmd
  else if c = '[' then .push
  else if c = ']' then .pop
  else if c = escChar then .escape
  else .ignore

/-- The effect of each command: the body of the corresponding branch of the
`elif` chain in `run` (lines 679-774).  Returns the new state, the
collaborator calls emitted, and whether interpretation continues (`false`
exactly for the escape symbol's `break`). -/
def applyCmd (p : Params) (s : MState) : Cmd → MState × List TCall × Bool
  | .upper =>
    let engaged := s.penColor.isSome ∧ s.turtle.pensize ≠ 0
    let t1 := { s.turtle with pendown := decide engaged }
    let t2 := { t1 with pos := p.fwd t1.pos t1.heading s.length }
    let s1 := { s with turtle := t2 }
    let r := gif_handler p s1
    (r.1, (if engaged then TCall.pendown else TCall.penup) :: TCall.forward s.length :: r.2,
      true)
  | .lower =>
    let t1 := { s.turtle with pendown := false }
    let t2 := { t1 with pos := p.fwd t1.pos t1.heading s.length }
    ({ s with turtle := t2 }, [TCall.penup, TCall.forward s.length], true)
  | .resetLength => ({ s with length := p.length }, [], true)
  | .incLength => ({ s with length := s.length + p.length_increment }, [], true)
  | .decLength => ({ s with length := s.length - p.length_increment }, [], true)
  | .mulLength => ({ s with length := s.length * p.length_scalar }, [], true)
  | .divLength => ({ s with length := s.length / p.length_scalar }, [], true)
  | .turnPlus =>
    if s.swapSigns then
      ({ s with turtle := { s.turtle with heading := p.turnRight s.turtle.heading s.angle } },
        [TCall.right s.angle], true)
    else
      ({ s with turtle := { s.turtle with heading := p.turnLeft s.turtle.heading s.angle } },
        [TCall.left s.angle], true)
  | .turnMinus =>
    if s.swapSigns then
      ({ s with turtle := { s.turtle with heading := p.turnLeft s.turtle.heading s.angle } },
        [TCall.left s.angle], true)
    else
      ({ s with turtle := { s.turtle with heading := p.turnRight s.turtle.heading s.angle } },
        [TCall.right s.angle], true)
  | .toggleSigns => ({ s with swapSigns := !s.swapSigns }, [], true)
  | .aboutFace =>
    ({ s with turtle :=
        { s.turtle with heading := p.turnRight s.turtle.heading (p.full_circle / 2) } },
      [TCall.right (p.full_circle / 2)], true)
  | .resetAngle => ({ s with angle := p.angle }, [], true)
  | .incAngle => ({ s with angle := s.angle + p.angle_increment }, [], true)
  | .decAngle => ({ s with angle := s.angle - p.angle_increment }, [], true)
  | .resetThickness =>
    let r := set_pensize { s with thickness := p.thickness }
    (r.1, r.2, true)
  | .incThickness =>
    let r := set_pensize { s with thickness := s.thickness + p.thickness_increment }
    (r.1, r.2, true)
  | .decThickness =>
    let r := set_pensize { s with thickness := s.thickness - p.thickness_increment }
    (r.1, r.2, true)
  | .digit n =>
    let r := set_color (p.colors.getD n none) s
    (r.1, r.2, true)
  | .modifyFillCmd => ({ s with modifyFill := true }, [], true)
  | .incColor ch dec =>
    let r := increment_color p ch dec s
    (r.1, r.2, true)
  | .beginFillCmd =>
    (s, if s.fillColor.isSome then [TCall.begin_fill] else [], true)
  | .endFillCmd =>
    let fcalls := if s.fillColor.isSome then [TCall.end_fill] else []
    let r := gif_handler p s
    (r.1, fcalls ++ r.2, true)
  | .dotCmd =>
    let r := gif_handler p s
    (r.1, dot_calls s.fillColor ++ r.2, true)
  | .toggleCases => ({ s with swapCases := !s.swapCases }, [], true)
  | .gotoPos =>
    let r := orient (some p.position) none s.turtle
    ({ s with turtle := r.1 }, r.2, true)
  | .gotoHeading =>
    let r := orient none (some p.heading) s.turtle
    ({ s with turtle := r.1 }, r.2, true)
  | .clearCmd => ({ s with stack := [] }, [TCall.clear], true)
  | .push =>
    ({ s with stack :=
        (State.mk s.turtle.pos s.turtle.heading s.angle s.length s.thickness
          s.penColor s.fillColor s.swapSigns s.swapCases s.modifyFill) :: s.stack }, [], true)
  | .pop =>
    match s.stack with
    | [] => (s, [], true)
    | st :: rest =>
      let r := orient (some st.position) (some st.heading) s.turtle
      ({ s with
          turtle := r.1
          stack := rest
          angle := st.angle
          length := st.length
          swapSigns := st.swap_signs
          swapCases := st.swap_cases
          modifyFill := st.modify_fill
          penColor := st.pen_color
          fillColor := st.fill_color }, r.2, true)
  | .escape => (s, [], false)
  | .ignore => (s, [], true)

/-- The dispatch on one (already case-adjusted) symbol: the body of the
`for c in string` loop in `run` (lines 679-774), i.e. the branch selected by
the `elif` chain applied to the state. -/
def dispatch (p : Params) (s : MState) (c : Char) : MState × List TCall × Bool :=
  applyCmd p s (charCmd c)

/-- One loop iteration: case adjustment followed by the dispatch. -/
def step (p : Params) (s : MState) (c : Char) : MState × List TCall × Bool :=
  dispatch p s (caseAdjust s.swapCases c)

/-- The `for c in string` loop of `run`, stopping early on the escape symbol's
`break`. -/
def runChars (p : Params) : MState → List Char → MState × List TCall
  | s, [] => (s, [])
  | s, c :: rest =>
    match step p s c with
    | (s1, calls, true) =>
      let r := runChars p s1 rest
      (r.1, calls ++ r.2)
    | (s1, calls, false) => (s1, calls)

/-- The initial interpreter locals of `run` (lines 623-628), observing the
given collaborator state. -/
def initState (p : Params) (t0 : Turtle) : MState :=
  { turtle := t0, angle := p.angle, length := p.length, thickness := p.thickness,
    penColor := p.colors.getD 0 none, fillColor := p.colors.getD 1 none,
    swapSigns := false, swapCases := false, modifyFill := false,
    stack := [], gifData := [], draws := 0, framesAttempted := 0 }

/-- Preamble line `if pen_color: t.pencolor(pen_color)` (lines 668-669). -/
def apply_pen_color (s : MState) : MState × List TCall :=
  match s.penColor with
  | some col => ({ s with turtle := { s.turtle with pencolor := col } }, [TCall.pencolor col])
  | none => (s, [])

/-- Preamble line `if fill_color: t.fillcolor(fill_color)` (lines 670-671). -/
def apply_fill_color (s : MState) : MState × List TCall :=
  match s.fillColor with
  | some col => ({ s with turtle := { s.turtle with fillcolor := col } }, [TCall.fillcolor col])
  | none => (s, [])

/-- Python `run(...)` (lines 601-781): preamble (apply stroke width and colors,
capture the initial frame when gif is enabled), the symbol loop, and the final
catch-up capture when the draw counter is not a multiple of `draws_per_frame`. -/
def run (p : Params) (t0 : Turtle) (string : List Char) : MState × List TCall :=
  let s0 := initState p t0
  let r1 := set_pensize s0
  let r2 := apply_pen_color r1.1
  let r3 := apply_fill_color r2.1
  let r4 := if p.gif then save_frame p r3.1 else (r3.1, [])
  let r5 := runChars p r4.1 string
  let r6 := if p.gif ∧ r5.1.draws % p.draws_per_frame ≠ 0 then save_frame p r5.1
    else (r5.1, [])
  (r6.1, r1.2 ++ r2.2 ++ r3.2 ++ r4.2 ++ r5.2 ++ r6.2)

/-- The frame-accounting invariant maintained across the symbol loop once the
initial frame has been captured: the attempted counter records the initial
capture plus one capture per completed `draws_per_frame` draws, and the number
of stored frames is the attempted count truncated at `max_frames`. -/
def Inv (p : Params) (s : MState) : Prop :=
  s.framesAttempted = 1 + s.draws / p.draws_per_frame ∧
  s.gifData.length = min s.framesAttempted p.max_frames

/-- The symbols `0`-`9` as a list. -/
def digitChars : List Char := ['0', '1', '2', '3', '4', '5', '6', '7', '8', '9']

/-- The channel increment/decrement symbols. -/
def incrementChars : List Char := ['.', ',', ':', ';', '!', '?']

/-- The channel and direction selected by each increment symbol, matching the
`increment_color` call in the corresponding dispatch branch. -/
def incChannel : Char → Nat × Bool
  | '.' => (0, false)
  | ',' => (0, true)
  | ':' => (1, false)
  | ';' => (1, true)
  | '!' => (2, false)
  | _ => (2, true)

/-- A concrete geometry and parameter set used to evaluate the interpreter on
closed inputs: movement along the x-axis, additive turning, the default
palette, and the numeric defaults of `draw`. -/
def baseParams : Params :=
  { fwd := fun q _ d => (q.1 + d, q.2)
    turnLeft := fun h a => h + a
    turnRight := fun h a => h - a
    colors := make_colors (some ⟨255, 255, 255⟩) (some ⟨128, 128, 128⟩) none
    full_circle := 360
    position := (0, 0)
    heading := 0
    angle := 90
    length := 10
    thickness := 1
    angle_increment := 15
    length_increment := 5
    length_scalar := 2
    thickness_increment := 1
    color_increments := (1, 1, 1)
    gif := false
    draws_per_frame := 1
    max_frames := 100
    bg := ⟨0, 0, 0⟩
    canvas := (600, 600) }

/-- A concrete initial collaborator state (fresh turtle at the origin). -/
def baseTurtle : Turtle :=
  { pos := (0, 0), heading := 0, pendown := true, pensize := 1,
    pencolor := ⟨0, 0, 0⟩, fillcolor := ⟨0, 0, 0⟩, speed := 0 }

/-- The base parameters with gif capture enabled at the given sampling rate
and frame cap. -/
def gifParams (k m : Nat) : Params :=
  { baseParams with gif := true, draws_per_frame := k, max_frames := m }

/-- The base parameters with the fill color absent, as produced by
`draw(..., fill_color=None)`. -/
def noFillParams : Params :=
  { baseParams with colors := make_colors (some ⟨255, 255, 255⟩) none none }

/-- A concrete interpreter state with the modify-fill flag set and both colors
present. -/
def modifyFillState : MState :=
  { turtle := baseTurtle, angle := 90, length := 10, thickness := 1,
    penColor := some ⟨1, 2, 3⟩, fillColor := some ⟨4, 5, 6⟩,
    swapSigns := false, swapCases := false, modifyFill := true,
    stack := [], gifData := [], draws := 0, framesAttempted := 0 }

/-- A concrete interpreter state whose thickness has been driven negative by
repeated `<` symbols. -/
def negThickState : MState :=
  { turtle := baseTurtle, angle := 90, length := 10, thickness := -5,
    penColor := some ⟨255, 255, 255⟩, fillColor := none, swapSigns := false,
    swapCases := false, modifyFill := false, stack := [], gifData := [],
    draws := 0, framesAttempted := 0 }

/-- The final interpreter state of `run`, written as a chain of phase results. -/
theorem run_fst (p : Params) (t0 : Turtle) (string : List Char) :
    (run p t0 string).1 =
      (let s3 := (apply_fill_color (apply_pen_color (set_pensize (initState p t0)).1).1).1
       let s4 := (if p.gif then save_frame p s3 else (s3, [])).1
       let s5 := (runChars p s4 string).1
       (if p.gif ∧ s5.draws % p.draws_per_frame ≠ 0 then save_frame p s5 else (s5, [])).1) :=
  rfl

theorem zip_everyOther {α : Type} :
    ∀ toks : List α, (everyOther toks).zip (everyOther (toks.drop 1)) = pairTokens toks
  | [] => rfl
  | [_] => rfl
  | x :: y :: rest => by
    cases rest with
    | nil => rfl
    | cons z rest' =>
      have ih := zip_everyOther (z :: rest')
      simp only [everyOther, List.drop_succ_cons, List.drop_zero, List.zip_cons_cons,
        pairTokens] at ih ⊢
      rw [ih]

theorem pairTokens_dropLast {α : Type} :
    ∀ toks : List α, toks.length % 2 = 1 → pairTokens toks = pairTokens toks.dropLast
  | [], h => by simp at h
  | [_], _ => rfl
  | x :: y :: rest, h => by
    cases rest with
    | nil => simp at h
    | cons z rest' =>
      have h' : (z :: rest').length % 2 = 1 := by
        simp only [List.length_cons] at h ⊢
        omega
      have ih := pairTokens_dropLast (z :: rest') h'
      simp only [pairTokens, List.dropLast_cons₂, ih]

theorem getD_append_lt {α : Type} (d : α) :
    ∀ (l l' : List α) (i : Nat), i < l.length → (l ++ l').getD i d = l.getD i d
  | [], _, i, h => by simp at h
  | _ :: _, _, 0, _ => rfl
  | _ :: t, l', i + 1, h => by
    simpa using getD_append_lt d t l' i (by simpa using h)

theorem getD_append_ge {α : Type} (d : α) :
    ∀ (l l' : List α) (i : Nat), l.length ≤ i → (l ++ l').getD i d = l'.getD (i - l.length) d
  | [], _, i, _ => by simp
  | a :: t, _, 0, h => by simp at h
  | a :: t, l', i + 1, h => by
    simp only [List.cons_append, List.getD_cons_succ, List.length_cons, Nat.succ_sub_succ]
    exact getD_append_ge d t l' i (by simp at h; omega)

theorem getD_map_lt {α β : Type} (f : α → β) (d' : β) (d : α) :
    ∀ (l : List α) (i : Nat), i < l.length → (l.map f).getD i d' = f (l.getD i d)
  | [], i, h => by simp at h
  | _ :: _, 0, _ => rfl
  | _ :: t, i + 1, h => by
    simpa using getD_map_lt f d' d t i (by simpa using h)

theorem getD_take_lt {α : Type} (d : α) :
    ∀ (l : List α) (n i : Nat), i < n → (l.take n).getD i d = l.getD i d
  | [], n, i, _ => by simp
  | _ :: _, n + 1, 0, _ => rfl
  | _ :: t, n + 1, i + 1, h => by
    simpa using getD_take_lt d t n i (by omega)

theorem getD_drop {α : Type} (d : α) :
    ∀ (l : List α) (n i : Nat), (l.drop n).getD i d = l.getD (n + i) d
  | _, 0, _ => by simp
  | [], n + 1, i => by simp
  | _ :: t, n + 1, i => by
    rw [List.drop_succ_cons, getD_drop d t n i, Nat.succ_add, List.getD_cons_succ]

/-- Claim C3: expansion at level 0 returns the start string unchanged; each
level applies one simultaneous substitution pass to the previous level's
output (so level + 1 equals one pass applied to level, in particular level 2
equals one pass applied to level 1); a pass replaces every character by its
grammar entry if one exists, else passes it through, acting on the pre-pass
string only (the pass is a homomorphism on concatenation and is determined by
its action on single characters). -/
theorem c3_expand (start : List Char) (rules : RulesDict) :
    lsystem start rules 0 = start ∧
    (∀ level : Int, 0 ≤ level →
      lsystem start rules (level + 1) = lsystemStep rules (lsystem start rules level)) ∧
    (∀ c : Char, lsystemStep rules [c] = (dictGet rules [c]).getD [c]) ∧
    (∀ xs ys : List Char,
      lsystemStep rules (xs ++ ys) = lsystemStep rules xs ++ lsystemStep rules ys) := by
  refine ⟨rfl, ?_, ?_, ?_⟩
  · intro level hlevel
    have h : (level + 1).toNat = level.toNat + 1 := by omega
    unfold lsystem
    rw [h, Function.iterate_succ_apply']
  · intro c
    simp [lsystemStep]
  · intro xs ys
    induction xs with
    | nil => rfl
    | cons c xs ih => simp [lsystemStep, ih]

theorem c3_expand_witness :
    ((0 : Int) ≤ 1) ∧
    lsystem "F".toList (make_rules "F F+F-F-F+F".toList) (1 + 1)
      = lsystemStep (make_rules "F F+F-F-F+F".toList)
          (lsystem "F".toList (make_rules "F F+F-F-F+F".toList) 1) ∧
    lsystem "F".toList (make_rules "F F+F-F-F+F".toList) 0 = "F".toList ∧
    lsystem "F".toList (make_rules "F F+F-F-F+F".toList) 1 = "F+F-F-F+F".toList :=
  ⟨by decide, (c3_expand "F".toList (make_rules "F F+F-F-F+F".toList)).2.1 1 (by decide),
    by decide, by decide⟩

/-- Claim C10: `lsystem` is total for negative levels and returns the start
string unchanged, because `for _ in range(level)` runs zero passes. -/
theorem c10_negative_level (start : List Char) (rules : RulesDict) (level : Int)
    (h : level < 0) : lsystem start rules level = start := by
  unfold lsystem
  have h0 : level.toNat = 0 := by omega
  rw [h0]
  rfl

theorem c10_negative_level_witness :
    ((-1 : Int) < 0) ∧
    lsystem "F".toList (make_rules "F F+F-F-F+F".toList) (-1) = "F".toList :=
  ⟨by decide, c10_negative_level _ _ _ (by decide)⟩

/-- Claim C7: a whitespace-delimited grammar spec is paired positionally into
(symbol, replacement) entries; with an odd token count the trailing unpaired
token is silently dropped (the built dict equals the one built from the token
list without its last element), and the builder is total (no error path). -/
theorem c7_odd_tokens (s : List Char) (h : (splitWs s).length % 2 = 1) :
    make_rules s = dictFromPairs (pairTokens (splitWs s)) ∧
    pairTokens (splitWs s) = pairTokens (splitWs s).dropLast := by
  constructor
  · rw [← zip_everyOther (splitWs s)]
    rfl
  · exact pairTokens_dropLast _ h

theorem c7_odd_tokens_witness :
    ((splitWs "F F+F-F-F+F X".toList).length % 2 = 1) ∧
    pairTokens (splitWs "F F+F-F-F+F X".toList)
      = pairTokens (splitWs "F F+F-F-F+F X".toList).dropLast ∧
    make_rules "F F+F-F-F+F X".toList = [("F".toList, "F+F-F-F+F".toList)] ∧
    make_rules "F F+F-F-F+F".toList = [("F".toList, "F+F-F-F+F".toList)] :=
  ⟨by decide, (c7_odd_tokens "F F+F-F-F+F X".toList (by decide)).2, by decide, by decide⟩

/-- Claim C5: with `colors` absent the palette is the conformed `color` and
`fill_color` followed by slots 2-9 of the default sequence; with `colors`
present, at most ten supplied entries are conformed in order, the remaining
slots up to ten are filled from the default sequence at the same index, and
the supplied entries are independent of the `color`/`fill_color` arguments. -/
theorem c5_make_colors (color fill_color c2 f2 : OpColor) (cs : List OpColor) :
    make_colors color fill_color none
      = conform_color color :: conform_color fill_color :: (DEFAULT_COLORS.drop 2).map some ∧
    (make_colors color fill_color (some cs)).length = DEFAULT_COLORS.length ∧
    (∀ i : Nat, i < min cs.length DEFAULT_COLORS.length →
      (make_colors color fill_color (some cs)).getD i none = conform_color (cs.getD i none)) ∧
    (∀ i : Nat, min cs.length DEFAULT_COLORS.length ≤ i → i < DEFAULT_COLORS.length →
      (make_colors color fill_color (some cs)).getD i none
        = some (DEFAULT_COLORS.getD i ⟨0, 0, 0⟩)) ∧
    make_colors color fill_color (some cs) = make_colors c2 f2 (some cs) := by
  have hlen : ((cs.take DEFAULT_COLORS.length).map conform_color).length
      = min cs.length DEFAULT_COLORS.length := by
    simp [Nat.min_comm]
  refine ⟨rfl, ?_, ?_, ?_, rfl⟩
  · show ((cs.take DEFAULT_COLORS.length).map conform_color
      ++ (DEFAULT_COLORS.drop ((cs.take DEFAULT_COLORS.length).map conform_color).length).map
        some).length = DEFAULT_COLORS.length
    rw [List.length_append, hlen, List.length_map, List.length_drop]
    omega
  · intro i hi
    show ((cs.take DEFAULT_COLORS.length).map conform_color
      ++ (DEFAULT_COLORS.drop ((cs.take DEFAULT_COLORS.length).map conform_color).length).map
        some).getD i none = conform_color (cs.getD i none)
    rw [getD_append_lt _ _ _ i (by rw [hlen]; exact hi),
      getD_map_lt conform_color none none _ i (by simp; omega),
      getD_take_lt none cs DEFAULT_COLORS.length i (by omega)]
  · intro i h1 h2
    show ((cs.take DEFAULT_COLORS.length).map conform_color
      ++ (DEFAULT_COLORS.drop ((cs.take DEFAULT_COLORS.length).map conform_color).length).map
        some).getD i none = some (DEFAULT_COLORS.getD i ⟨0, 0, 0⟩)
    rw [getD_append_ge _ _ _ i (by rw [hlen]; exact h1), hlen,
      getD_map_lt some none ⟨0, 0, 0⟩ _ _ (by simp; omega),
      getD_drop, Nat.add_sub_cancel' h1]

theorem c5_make_colors_witness :
    make_colors (some ⟨10, 10, 10⟩) none none
      = some ⟨10, 10, 10⟩ :: none :: (DEFAULT_COLORS.drop 2).map some ∧
    ((0 : Nat) < min [some (⟨300, -1, 7⟩ : Color)].length DEFAULT_COLORS.length) ∧
    (make_colors none none (some [some ⟨300, -1, 7⟩])).getD 0 none = some ⟨255, 0, 7⟩ ∧
    (make_colors none none (some [some ⟨300, -1, 7⟩])).getD 3 none = some ⟨255, 128, 0⟩ :=
  ⟨(c5_make_colors (some ⟨10, 10, 10⟩) none none none []).1.trans (by decide),
    by decide,
    ((c5_make_colors none none none none [some ⟨300, -1, 7⟩]).2.2.1 0 (by decide)).trans
      (by decide),
    ((c5_make_colors none none none none [some ⟨300, -1, 7⟩]).2.2.2.1 3 (by decide)
      (by decide)).trans (by decide)⟩

theorem caseAdjust_not_alpha (b : Bool) (c : Char) (h : c.isAlpha = false) :
    caseAdjust b c = c := by
  simp [caseAdjust, h]

theorem step_eq_dispatch (p : Params) (s : MState) (c : Char) (h : c.isAlpha = false) :
    step p s c = dispatch p s c := by
  unfold step
  rw [caseAdjust_not_alpha _ _ h]

theorem step_escape (p : Params) (s : MState) : step p s escChar = (s, [], false) := by
  rw [step_eq_dispatch p s escChar (by decide)]
  rfl

theorem runChars_escape (p : Params) :
    ∀ (P : List Char) (s : MState) (Q : List Char),
      runChars p s (P ++ escChar :: Q) = runChars p s P
  | [], s, Q => by
    simp [runChars, step_escape p s]
  | c :: P, s, Q => by
    simp only [List.cons_append, runChars]
    rcases hstep : step p s c with ⟨s1, calls, b⟩
    cases b <;> simp only [hstep, List.append_eq, runChars_escape p P s1 Q]

/-- Claim C9: the escape symbol terminates interpretation immediately; a run on
`P ++ escape ++ Q` emits exactly the collaborator call sequence of a run on `P`
alone, and reaches the same final state. -/
theorem c9_escape (p : Params) (t0 : Turtle) (P Q : List Char) :
    (run p t0 (P ++ escChar :: Q)).2 = (run p t0 P).2 ∧
    (run p t0 (P ++ escChar :: Q)).1 = (run p t0 P).1 := by
  constructor <;> simp only [run, runChars_escape]

/-- Claim C8: processing `]` with an empty snapshot stack leaves the state,
the stack, and the emitted call list unchanged, and interpretation continues:
it is a defined no-op, not a fault. -/
theorem c8_pop_empty (p : Params) (s : MState) (h : s.stack = []) :
    step p s ']' = (s, [], true) := by
  rw [step_eq_dispatch p s ']' (by decide)]
  obtain ⟨t, ang, len, th, pc, fc, ss, sc, mf, stk, gd, dr, fa⟩ := s
  simp only at h
  subst h
  rfl

theorem c8_pop_empty_witness :
    (initState baseParams baseTurtle).stack = [] ∧
    step baseParams (initState baseParams baseTurtle) ']'
      = (initState baseParams baseTurtle, [], true) :=
  ⟨rfl, c8_pop_empty baseParams (initState baseParams baseTurtle) rfl⟩

/-- Claim C1, refuting theorem: the `]` handler restores every snapshot field
except `thickness`, which keeps the value it had inside the brackets.  Running
the balanced region `[>]` from the initial state (thickness 1, thickness
increment 1) ends with thickness 2 instead of the pre-`[` value 1, while every
other component of the interpreter state is back at its pre-`[` value; the
snapshot pushed by `[` does store thickness, it is just never read back. -/
theorem c1_thickness_not_restored :
    (run baseParams baseTurtle ('[' :: '>' :: ']' :: [])).1.thickness
      = baseParams.thickness + baseParams.thickness_increment ∧
    baseParams.thickness + baseParams.thickness_increment ≠ baseParams.thickness ∧
    (run baseParams baseTurtle ('[' :: '>' :: ']' :: [])).1.stack = [] ∧
    (run baseParams baseTurtle ('[' :: '>' :: ']' :: [])).1.angle = baseParams.angle ∧
    (run baseParams baseTurtle ('[' :: '>' :: ']' :: [])).1.length = baseParams.length ∧
    (run baseParams baseTurtle ('[' :: '>' :: ']' :: [])).1.turtle.pos = baseTurtle.pos ∧
    (run baseParams baseTurtle ('[' :: '>' :: ']' :: [])).1.turtle.heading
      = baseTurtle.heading ∧
    (run baseParams baseTurtle ('[' :: '>' :: ']' :: [])).1.penColor
      = baseParams.colors.getD 0 none ∧
    (run baseParams baseTurtle ('[' :: '>' :: ']' :: [])).1.fillColor
      = baseParams.colors.getD 1 none ∧
    (run baseParams baseTurtle ('[' :: '>' :: ']' :: [])).1.modifyFill = false := by
  refine ⟨rfl, show (1 : Rat) + 1 ≠ 1 by norm_num, ?_, rfl, rfl, ?_, rfl, by decide, by decide,
    rfl⟩
  · decide
  · rfl

/-- Claim C4, refuting theorem: with the fill color absent, `#` followed by
the channel-increment symbol `.` leaves the modify-fill flag still set (the
increment is a no-op that does not consume the flag), and a second
color-affecting symbol (`5`) then targets the fill color, not the pen color:
the run `#.5` ends with the fill color set to palette slot 5 while the pen
color is still the initial slot 0. -/
theorem c4_counterexample :
    noFillParams.colors.getD 1 none = none ∧
    (run noFillParams baseTurtle ('#' :: '.' :: [])).1.modifyFill = true ∧
    (run noFillParams baseTurtle ('#' :: '.' :: '5' :: [])).1.fillColor
      = noFillParams.colors.getD 5 none ∧
    (run noFillParams baseTurtle ('#' :: '.' :: '5' :: [])).1.fillColor ≠ none ∧
    (run noFillParams baseTurtle ('#' :: '.' :: '5' :: [])).1.penColor
      = noFillParams.colors.getD 0 none := by
  decide

theorem set_color_modify_true (s : MState) (hs : s.modifyFill = true) (col : OpColor) :
    (set_color col s).1.modifyFill = false ∧ (set_color col s).1.fillColor = col ∧
    (set_color col s).1.penColor = s.penColor := by
  unfold set_color
  rw [if_pos hs]
  cases col <;> simp

theorem set_color_modify_false (s : MState) (hs : s.modifyFill = false) (col : OpColor) :
    (set_color col s).1.penColor = col ∧ (set_color col s).1.fillColor = s.fillColor ∧
    (set_color col s).1.modifyFill = false := by
  unfold set_color
  rw [if_neg (by rw [hs]; simp)]
  cases col <;> simp [hs]

theorem increment_color_noop (p : Params) (ch : Nat) (dec : Bool) (s : MState)
    (hs : s.modifyFill = true) (hf : s.fillColor = none) :
    increment_color p ch dec s = (s, []) := by
  simp [increment_color, hs, hf]

theorem increment_color_modify_some (p : Params) (ch : Nat) (dec : Bool) (s : MState)
    (col : Color) (hs : s.modifyFill = true) (hf : s.fillColor = some col) :
    (increment_color p ch dec s).1.modifyFill = false ∧
    (increment_color p ch dec s).1.penColor = s.penColor := by
  simp only [increment_color, hs, hf, if_true]
  refine ⟨(set_color_modify_true s hs _).1, (set_color_modify_true s hs _).2.2⟩

theorem digit_not_alpha (c : Char) (hc : c ∈ digitChars) : c.isAlpha = false := by
  simp only [digitChars, List.mem_cons, List.not_mem_nil, or_false] at hc
  rcases hc with rfl | rfl | rfl | rfl | rfl | rfl | rfl | rfl | rfl | rfl <;> decide

theorem increment_not_alpha (c : Char) (hc : c ∈ incrementChars) : c.isAlpha = false := by
  simp only [incrementChars, List.mem_cons, List.not_mem_nil, or_false] at hc
  rcases hc with rfl | rfl | rfl | rfl | rfl | rfl <;> decide

theorem dispatch_hash (p : Params) (s : MState) :
    dispatch p s '#' = ({ s with modifyFill := true }, [], true) := rfl

theorem dispatch_digit (p : Params) (s : MState) (c : Char) (hc : c ∈ digitChars) :
    dispatch p s c = ((set_color (p.colors.getD (c.toNat - '0'.toNat) none) s).1,
      (set_color (p.colors.getD (c.toNat - '0'.toNat) none) s).2, true) := by
  simp only [digitChars, List.mem_cons, List.not_mem_nil, or_false] at hc
  rcases hc with rfl | rfl | rfl | rfl | rfl | rfl | rfl | rfl | rfl | rfl <;> rfl

theorem dispatch_increment (p : Params) (s : MState) (c : Char) (hc : c ∈ incrementChars) :
    dispatch p s c
      = ((increment_color p (incChannel c).1 (incChannel c).2 s).1,
        (increment_color p (incChannel c).1 (incChannel c).2 s).2, true) := by
  simp only [incrementChars, List.mem_cons, List.not_mem_nil, or_false] at hc
  rcases hc with rfl | rfl | rfl | rfl | rfl | rfl <;> rfl

/-- Claim C4, amended: `#` sets the modify-fill flag.  While the flag is set, a
palette-digit symbol always targets the fill color and clears the flag with
the pen color untouched; a channel increment/decrement symbol does so only
when the targeted fill color is present — when the fill color is the no-color
sentinel the increment is a complete no-op and the flag stays set.  Once the
flag is clear, a palette digit targets the pen color and leaves the fill color
alone. -/
theorem c4_modify_fill_amended (p : Params) (s : MState) :
    (step p s '#').1 = { s with modifyFill := true } ∧
    (∀ c ∈ digitChars, s.modifyFill = true →
      (step p s c).1.modifyFill = false ∧
      (step p s c).1.fillColor = p.colors.getD (c.toNat - '0'.toNat) none ∧
      (step p s c).1.penColor = s.penColor) ∧
    (∀ c ∈ incrementChars, s.modifyFill = true → s.fillColor = none →
      step p s c = (s, [], true)) ∧
    (∀ c ∈ incrementChars, s.modifyFill = true → ∀ col : Color, s.fillColor = some col →
      (step p s c).1.modifyFill = false ∧ (step p s c).1.penColor = s.penColor) ∧
    (∀ c ∈ digitChars, s.modifyFill = false →
      (step p s c).1.penColor = p.colors.getD (c.toNat - '0'.toNat) none ∧
      (step p s c).1.fillColor = s.fillColor ∧ (step p s c).1.modifyFill = false) := by
  refine ⟨?_, ?_, ?_, ?_, ?_⟩
  · rw [step_eq_dispatch p s '#' (by decide), dispatch_hash]
  · intro c hc hs
    rw [step_eq_dispatch p s c (digit_not_alpha c hc), dispatch_digit p s c hc]
    exact ⟨(set_color_modify_true s hs _).1, (set_color_modify_true s hs _).2.1,
      (set_color_modify_true s hs _).2.2⟩
  · intro c hc hs hf
    rw [step_eq_dispatch p s c (increment_not_alpha c hc), dispatch_increment p s c hc,
      increment_color_noop p _ _ s hs hf]
  · intro c hc hs col hf
    rw [step_eq_dispatch p s c (increment_not_alpha c hc), dispatch_increment p s c hc]
    exact ⟨(increment_color_modify_some p _ _ s col hs hf).1,
      (increment_color_modify_some p _ _ s col hs hf).2⟩
  · intro c hc hs
    rw [step_eq_dispatch p s c (digit_not_alpha c hc), dispatch_digit p s c hc]
    exact ⟨(set_color_modify_false s hs _).1, (set_color_modify_false s hs _).2.1,
      (set_color_modify_false s hs _).2.2⟩

theorem c4_modify_fill_amended_witness :
    ('5' ∈ digitChars) ∧ modifyFillState.modifyFill = true ∧
    ((step baseParams modifyFillState '5').1.modifyFill = false ∧
      (step baseParams modifyFillState '5').1.fillColor
        = baseParams.colors.getD ('5'.toNat - '0'.toNat) none ∧
      (step baseParams modifyFillState '5').1.penColor = modifyFillState.penColor) :=
  ⟨by decide, rfl,
    (c4_modify_fill_amended baseParams modifyFillState).2.1 '5' (by decide) rfl⟩

theorem gif_handler_calls (p : Params) (s : MState) :
    (gif_handler p s).2 = [] ∨ (gif_handler p s).2 = [TCall.captureFrame] := by
  unfold gif_handler save_frame
  dsimp only
  split_ifs <;> simp

theorem mem_pensize_gif_handler (p : Params) (s : MState) (w : Rat) :
    TCall.pensize w ∉ (gif_handler p s).2 := by
  rcases gif_handler_calls p s with h | h <;> simp [h]

theorem mem_pensize_set_color (col : OpColor) (s : MState) (w : Rat) :
    TCall.pensize w ∉ (set_color col s).2 := by
  unfold set_color
  split_ifs <;> cases col <;> simp

theorem mem_pensize_increment (p : Params) (ch : Nat) (dec : Bool) (s : MState) (w : Rat) :
    TCall.pensize w ∉ (increment_color p ch dec s).2 := by
  unfold increment_color
  dsimp only
  split
  · simp
  · exact mem_pensize_set_color _ _ _

theorem mem_pensize_orient (pos : Option (Rat × Rat)) (hd : Option Rat) (t : Turtle)
    (w : Rat) : TCall.pensize w ∉ (orient pos hd t).2 := by
  unfold orient
  cases pos <;> cases hd <;> cases hdn : t.pendown <;> simp [hdn]

theorem mem_pensize_save_frame (p : Params) (s : MState) (w : Rat) :
    TCall.pensize w ∉ (save_frame p s).2 := by
  unfold save_frame
  dsimp only
  split_ifs <;> simp

theorem mem_pensize_apply_pen_color (s : MState) (w : Rat) :
    TCall.pensize w ∉ (apply_pen_color s).2 := by
  unfold apply_pen_color
  rcases hc : s.penColor with _ | col <;> simp

theorem mem_pensize_apply_fill_color (s : MState) (w : Rat) :
    TCall.pensize w ∉ (apply_fill_color s).2 := by
  unfold apply_fill_color
  rcases hc : s.fillColor with _ | col <;> simp

theorem mem_pensize_dot_calls (o : OpColor) (w : Rat) :
    TCall.pensize w ∉ dot_calls o := by
  cases o <;> simp [dot_calls]

set_option maxHeartbeats 1000000 in
theorem applyCmd_pensize (p : Params) (s : MState) (cmd : Cmd) (w : Rat)
    (h : TCall.pensize w ∈ (applyCmd p s cmd).2.1) :
    w = max 0 (applyCmd p s cmd).1.thickness := by
  cases cmd <;>
    first
    | (refine absurd h ?_
       simp [applyCmd, mem_pensize_gif_handler, mem_pensize_set_color,
         mem_pensize_increment, mem_pensize_orient, mem_pensize_dot_calls]
       done)
    | (exfalso; revert h
       cases hsw : s.swapSigns <;>
         simp [applyCmd, hsw, mem_pensize_gif_handler, mem_pensize_orient]
       done)
    | (exfalso; revert h
       by_cases he : (s.penColor.isSome ∧ s.turtle.pensize ≠ 0) <;>
         simp [applyCmd, he, mem_pensize_gif_handler]
       done)
    | (exfalso; revert h
       rcases hstk : s.stack with _ | ⟨st, rest⟩ <;>
         simp [applyCmd, hstk, mem_pensize_orient]
       done)
    | (simp [applyCmd, set_pensize] at h ⊢; exact h)

theorem dispatch_pensize (p : Params) (s : MState) (c : Char) (w : Rat)
    (h : TCall.pensize w ∈ (dispatch p s c).2.1) :
    w = max 0 (dispatch p s c).1.thickness :=
  applyCmd_pensize p s (charCmd c) w h

theorem step_pensize (p : Params) (s : MState) (c : Char) (w : Rat)
    (h : TCall.pensize w ∈ (step p s c).2.1) :
    w = max 0 (step p s c).1.thickness :=
  dispatch_pensize p s (caseAdjust s.swapCases c) w h

theorem runChars_pensize (p : Params) :
    ∀ (str : List Char) (s : MState) (w : Rat),
      TCall.pensize w ∈ (runChars p s str).2 → 0 ≤ w
  | [], _, w, h => by simp [runChars] at h
  | c :: rest, s, w, h => by
    simp only [runChars] at h
    rcases hstep : step p s c with ⟨s1, calls, b⟩
    rw [hstep] at h
    cases b
    · dsimp only at h
      have h2 := step_pensize p s c w (by rw [hstep]; exact h)
      rw [hstep] at h2
      dsimp only at h2
      rw [h2]
      exact le_max_left _ _
    · dsimp only at h
      rcases List.mem_append.mp h with h1 | h2
      · have h3 := step_pensize p s c w (by rw [hstep]; exact h1)
        rw [hstep] at h3
        dsimp only at h3
        rw [h3]
        exact le_max_left _ _
      · exact runChars_pensize p rest s1 w h2

theorem run_pensize (p : Params) (t0 : Turtle) (str : List Char) (w : Rat)
    (h : TCall.pensize w ∈ (run p t0 str).2) : 0 ≤ w := by
  unfold run at h
  dsimp only at h
  simp only [List.mem_append] at h
  rcases h with ((((h | h) | h) | h) | h) | h
  · simp [set_pensize] at h
    rw [h]
    exact le_max_left _ _
  · exact absurd h (mem_pensize_apply_pen_color _ _)
  · exact absurd h (mem_pensize_apply_fill_color _ _)
  · revert h
    split <;>
      first
      | exact fun h => absurd h (mem_pensize_save_frame _ _ _)
      | simp
  · exact runChars_pensize p str _ w h
  · revert h
    split <;> split <;>
      first
      | exact fun h => absurd h (mem_pensize_save_frame _ _ _)
      | simp

/-- Claim C6: the interpreter's thickness evolves by unbounded arithmetic —
`>` adds and `<` subtracts the thickness increment and `=` resets it to the
initial thickness, with no clamping on the stored value, which may therefore
go negative — and clamping to a minimum of 0 happens only where the value is
handed to the Drawing collaborator: every stroke-width call a step emits
carries exactly `max 0 thickness` for the step's resulting thickness, and
every stroke width in a whole run's call trace is non-negative. -/
theorem c6_thickness (p : Params) (s : MState) (t0 : Turtle) (str : List Char) :
    (step p s '>').1.thickness = s.thickness + p.thickness_increment ∧
    (step p s '<').1.thickness = s.thickness - p.thickness_increment ∧
    (step p s '=').1.thickness = p.thickness ∧
    (∀ c : Char, ∀ w : Rat, TCall.pensize w ∈ (step p s c).2.1 →
      w = max 0 (step p s c).1.thickness) ∧
    (∀ w : Rat, TCall.pensize w ∈ (step p s '>').2.1 →
      w = max 0 (s.thickness + p.thickness_increment)) ∧
    (∀ w : Rat, TCall.pensize w ∈ (run p t0 str).2 → 0 ≤ w) := by
  have hgt : (step p s '>').1.thickness = s.thickness + p.thickness_increment := by
    rw [step_eq_dispatch p s '>' (by decide)]
    rfl
  refine ⟨hgt, ?_, ?_, fun c w h => step_pensize p s c w h, ?_,
    fun w h => run_pensize p t0 str w h⟩
  · rw [step_eq_dispatch p s '<' (by decide)]
    rfl
  · rw [step_eq_dispatch p s '=' (by decide)]
    rfl
  · intro w h
    rw [← hgt]
    exact step_pensize p s '>' w h

theorem c6_thickness_witness :
    (step baseParams negThickState '>').1.thickness
      = negThickState.thickness + baseParams.thickness_increment ∧
    TCall.pensize (max 0 (negThickState.thickness + baseParams.thickness_increment))
      ∈ (step baseParams negThickState '>').2.1 ∧
    max (0 : Rat) (negThickState.thickness + baseParams.thickness_increment) = 0 ∧
    max 0 (negThickState.thickness + baseParams.thickness_increment)
      = max 0 (step baseParams negThickState '>').1.thickness := by
  have hmem : TCall.pensize (max 0 (negThickState.thickness + baseParams.thickness_increment))
      ∈ (step baseParams negThickState '>').2.1 := List.Mem.head _
  exact ⟨(c6_thickness baseParams negThickState baseTurtle []).1, hmem,
    show max (0 : Rat) (-5 + 1) = 0 by norm_num,
    (c6_thickness baseParams negThickState baseTurtle []).2.2.2.2.1
      (max 0 (negThickState.thickness + baseParams.thickness_increment)) hmem⟩

theorem save_frame_min (p : Params) (s : MState)
    (h : s.gifData.length = min s.framesAttempted p.max_frames) :
    (save_frame p s).1.framesAttempted = s.framesAttempted + 1 ∧
    (save_frame p s).1.draws = s.draws ∧
    (save_frame p s).1.gifData.length = min (s.framesAttempted + 1) p.max_frames := by
  unfold save_frame
  dsimp only
  split_ifs with hlt
  · refine ⟨rfl, rfl, ?_⟩
    simp only [List.length_append, List.length_cons, List.length_nil]
    omega
  · refine ⟨rfl, rfl, ?_⟩
    dsimp only
    omega

theorem gif_handler_inv (p : Params) (s : MState) (h : Inv p s) :
    Inv p (gif_handler p s).1 := by
  unfold Inv at h ⊢
  obtain ⟨h1, h2⟩ := h
  unfold gif_handler
  dsimp only
  split_ifs with hg hm
  · obtain ⟨e1, e2, e3⟩ := save_frame_min p { s with draws := s.draws + 1 } h2
    refine ⟨?_, ?_⟩
    · rw [e1, e2]
      dsimp only
      rw [h1, Nat.succ_div, if_pos (Nat.dvd_of_mod_eq_zero hm)]
      omega
    · rw [e3, e1]
  · refine ⟨?_, h2⟩
    dsimp only
    rw [h1, Nat.succ_div,
      if_neg fun hdvd => hm (by
        obtain ⟨c2, hc⟩ := hdvd
        rw [hc]
        exact Nat.mul_mod_right _ _)]
    omega
  · exact ⟨h1, h2⟩

theorem set_color_inv (p : Params) (col : OpColor) (s : MState) (h : Inv p s) :
    Inv p (set_color col s).1 := by
  unfold set_color
  split_ifs <;> cases col <;> exact h

theorem increment_color_inv (p : Params) (ch : Nat) (dec : Bool) (s : MState)
    (h : Inv p s) : Inv p (increment_color p ch dec s).1 := by
  unfold increment_color
  dsimp only
  split
  · exact h
  · exact set_color_inv p _ s h

theorem applyCmd_inv (p : Params) (s : MState) (cmd : Cmd) (h : Inv p s) :
    Inv p (applyCmd p s cmd).1 := by
  cases cmd <;>
    first
    | exact h
    | exact gif_handler_inv p _ h
    | exact set_color_inv p _ _ h
    | exact increment_color_inv p _ _ _ h
    | (cases hsw : s.swapSigns <;> (simp only [applyCmd, hsw]; exact h))
    | (simp only [applyCmd]
       rcases hstk : s.stack with _ | ⟨st, rest⟩ <;> exact h)

theorem step_inv (p : Params) (s : MState) (c : Char) (h : Inv p s) :
    Inv p (step p s c).1 :=
  applyCmd_inv p s (charCmd (caseAdjust s.swapCases c)) h

theorem runChars_inv (p : Params) :
    ∀ (str : List Char) (s : MState), Inv p s → Inv p (runChars p s str).1
  | [], _, h => h
  | c :: rest, s, h => by
    simp only [runChars]
    rcases hstep : step p s c with ⟨s1, calls, b⟩
    have h1 : Inv p s1 := by
      have h2 := step_inv p s c h
      rw [hstep] at h2
      exact h2
    cases b
    · exact h1
    · exact runChars_inv p rest s1 h1

theorem ceil_div_eq (d k : Nat) (hk : 1 ≤ k) :
    (d + k - 1) / k = d / k + if d % k = 0 then 0 else 1 := by
  have hr : d % k < k := Nat.mod_lt _ (by omega)
  rw [show d + k - 1 = d + (k - 1) by omega, Nat.add_div (by omega : 0 < k),
    Nat.div_eq_of_lt (by omega : k - 1 < k), Nat.mod_eq_of_lt (by omega : k - 1 < k)]
  by_cases hrz : d % k = 0
  · rw [if_pos hrz, if_neg (by omega)]
  · rw [if_neg hrz, if_pos (by omega)]

theorem apply_pen_color_counters (s : MState) :
    (apply_pen_color s).1.draws = s.draws ∧
    (apply_pen_color s).1.framesAttempted = s.framesAttempted ∧
    (apply_pen_color s).1.gifData = s.gifData := by
  unfold apply_pen_color
  rcases hc : s.penColor with _ | col <;> simp

theorem apply_fill_color_counters (s : MState) :
    (apply_fill_color s).1.draws = s.draws ∧
    (apply_fill_color s).1.framesAttempted = s.framesAttempted ∧
    (apply_fill_color s).1.gifData = s.gifData := by
  unfold apply_fill_color
  rcases hc : s.fillColor with _ | col <;> simp

/-- Claim C2: with gif capture enabled, sampling rate `k ≥ 1` and frame cap
`m`, the number of stored frames after a run is `min (ceil d / k + 1) m`
where `d` is the run's final count of qualifying draws (the `+1` is the
mandatory initial capture; `ceil d / k` is written `(d + k - 1) / k`), while
the attempted-capture counter records the full `ceil d / k + 1`: captures
beyond the cap only increment the attempted counter and store nothing. -/
theorem c2_frame_count (p : Params) (t0 : Turtle) (str : List Char)
    (hgif : p.gif = true) (hk : 1 ≤ p.draws_per_frame) :
    (run p t0 str).1.gifData.length
      = min (((run p t0 str).1.draws + p.draws_per_frame - 1) / p.draws_per_frame + 1)
          p.max_frames ∧
    (run p t0 str).1.framesAttempted
      = ((run p t0 str).1.draws + p.draws_per_frame - 1) / p.draws_per_frame + 1 ∧
    (run p t0 str).1.gifData.length
      = min (run p t0 str).1.framesAttempted p.max_frames := by
  obtain ⟨hd2, ha2, hg2⟩ :=
    apply_pen_color_counters (set_pensize (initState p t0)).1
  obtain ⟨hd3, ha3, hg3⟩ :=
    apply_fill_color_counters (apply_pen_color (set_pensize (initState p t0)).1).1
  have hrun := run_fst p t0 str
  simp only [hgif, if_true, true_and, eq_self_iff_true] at hrun
  rw [hrun]
  set s3 := (apply_fill_color (apply_pen_color (set_pensize (initState p t0)).1).1).1 with hs3
  have hd3' : s3.draws = 0 := by rw [hd3, hd2]; rfl
  have ha3' : s3.framesAttempted = 0 := by rw [ha3, ha2]; rfl
  have hg3' : s3.gifData = ([] : List Frame) := by rw [hg3, hg2]; rfl
  have hInv4 : Inv p (save_frame p s3).1 := by
    obtain ⟨e1, e2, e3⟩ := save_frame_min p s3 (by rw [hg3', ha3']; simp)
    constructor
    · rw [e1, e2, ha3', hd3']
      simp
    · rw [e3, e1, ha3']
  have hInv5 : Inv p (runChars p (save_frame p s3).1 str).1 :=
    runChars_inv p str _ hInv4
  set s5 := (runChars p (save_frame p s3).1 str).1 with hs5
  obtain ⟨h5a, h5l⟩ := hInv5
  have hceil := ceil_div_eq s5.draws p.draws_per_frame hk
  by_cases hd : s5.draws % p.draws_per_frame = 0
  · rw [if_neg (not_not_intro hd), if_pos hd] at *
    refine ⟨?_, ?_, ?_⟩ <;> (dsimp only) <;> omega
  · rw [if_pos hd, if_neg hd] at *
    obtain ⟨e1, e2, e3⟩ := save_frame_min p s5 h5l
    refine ⟨?_, ?_, ?_⟩
    · rw [e3, e2]
      try omega
    · rw [e1, e2]
      try omega
    · rw [e3, e1]
      try omega

theorem c2_frame_count_witness :
    ((gifParams 2 100).gif = true) ∧ (1 ≤ (gifParams 2 100).draws_per_frame) ∧
    (run (gifParams 2 100) baseTurtle "AAA".toList).1.draws = 3 ∧
    (run (gifParams 2 100) baseTurtle "AAA".toList).1.gifData.length = 3 ∧
    (run (gifParams 2 100) baseTurtle "AAA".toList).1.gifData.length
      = min (((run (gifParams 2 100) baseTurtle "AAA".toList).1.draws + 2 - 1) / 2 + 1)
          100 ∧
    (run (gifParams 2 100) baseTurtle "AAA".toList).1.framesAttempted
      = ((run (gifParams 2 100) baseTurtle "AAA".toList).1.draws + 2 - 1) / 2 + 1 :=
  ⟨rfl, by decide, by decide, by decide,
    (c2_frame_count (gifParams 2 100) baseTurtle "AAA".toList rfl (by decide)).1,
    (c2_frame_count (gifParams 2 100) baseTurtle "AAA".toList rfl (by decide)).2.1⟩

end TurtLSystems
